import Mathlib

/-!
Shallow embedding of the map-state synchronization and nearest-point
resolution engine of `src/app/map/page.tsx` of the lorn-rolls repository.

JavaScript numbers are modelled as a real value together with a finiteness
flag (`JSNum`): the source only ever branches on `Number.isFinite` and
otherwise treats coordinates as real numbers, so a non-finite number is
represented by `isFinite = false`; its `val` field is junk that the embedded
code never consumes on a path that checked finiteness first.

Stateful React pieces (the geolocation watcher, the fetch effect, the
selection controller, the map-initialisation and auto-fit machinery) are
embedded as explicit step functions on small state records, one per effect
or callback of the source, composed in the order React runs them.
-/

namespace LornRolls

/-- Model of a JavaScript `number`: a real value plus its `Number.isFinite`
status. -/
structure JSNum where
  val : ℝ
  isFinite : Bool

/-- Row shape selected from the `locations` table (`LocationRow` in
page.tsx): `id,name,description,lat,lng,created_at`, where `description`
may be null. -/
structure LocationRow where
  id : String
  name : String
  description : Option String
  lat : JSNum
  lng : JSNum
  created_at : String

/-- A GeoJSON point feature as built by the `geojson` useMemo of page.tsx:
properties `id`, `name`, `description` (a null description becomes `""`),
geometry coordinates `[lng, lat]`. -/
structure Feature where
  id : String
  name : String
  description : String
  lng : JSNum
  lat : JSNum

/-- Embedding of the `geojson` useMemo of page.tsx: keep exactly the rows
whose `lat` and `lng` are both finite, and project each kept row to a
feature, defaulting a null description to the empty string. -/
def geojsonFeatures (locations : List LocationRow) : List Feature :=
  (locations.filter fun l => l.lat.isFinite && l.lng.isFinite).map fun l =>
    { id := l.id
      name := l.name
      description := l.description.getD ""
      lng := l.lng
      lat := l.lat }

/-- Degree-to-radian conversion, the local `toRad` of `haversineMeters` in
page.tsx: `(d * Math.PI) / 180`. -/
noncomputable def toRad (d : ℝ) : ℝ := d * Real.pi / 180

/-- Embedding of `haversineMeters` from page.tsx, with Earth radius
6371000 meters:
`x = sin(dLat/2)^2 + cos(lat1) * cos(lat2) * sin(dLng/2)^2` and the result
`2 * R * asin(sqrt x)`. -/
noncomputable def haversineMeters (aLat aLng bLat bLng : ℝ) : ℝ :=
  let R : ℝ := 6371000
  let dLat := toRad (bLat - aLat)
  let dLng := toRad (bLng - aLng)
  let lat1 := toRad aLat
  let lat2 := toRad bLat
  let x := Real.sin (dLat / 2) * Real.sin (dLat / 2) +
    Real.cos lat1 * Real.cos lat2 * Real.sin (dLng / 2) * Real.sin (dLng / 2)
  2 * R * Real.arcsin (Real.sqrt x)

/-- A latitude/longitude pair, the shape of the `userPos` state of
page.tsx. -/
structure Pos where
  lat : ℝ
  lng : ℝ

/-- Shape of the `best` accumulator of the `nearest` useMemo: the winning
row and its haversine distance in meters. -/
structure NearestResult where
  loc : LocationRow
  meters : ℝ

/-- One iteration of the `for` loop in the `nearest` useMemo of page.tsx:
rows with a non-finite coordinate are skipped (`continue`); otherwise the
row replaces the best candidate when there is none yet or its distance is
strictly smaller. -/
noncomputable def nearestStep (userPos : Pos) (best : Option NearestResult)
    (loc : LocationRow) : Option NearestResult :=
  if loc.lat.isFinite && loc.lng.isFinite then
    let m := haversineMeters userPos.lat userPos.lng loc.lat.val loc.lng.val
    match best with
    | none => some { loc := loc, meters := m }
    | some b => if m < b.meters then some { loc := loc, meters := m } else some b
  else best

/-- Embedding of the `nearest` useMemo of page.tsx: null when the user
position is unavailable or the raw `locations` list is empty, otherwise
the loop above over the whole list. -/
noncomputable def nearest (userPos : Option Pos) (locations : List LocationRow) :
    Option NearestResult :=
  match userPos with
  | none => none
  | some u => if locations.isEmpty then none else locations.foldl (nearestStep u) none

/-- A location row whose latitude 100 is finite but outside the valid
geographic range, used as concrete input. -/
def rowOutOfRange : LocationRow :=
  { id := "x"
    name := "X"
    description := none
    lat := ⟨100, true⟩
    lng := ⟨0, true⟩
    created_at := "" }

/-- The feature the geojson conversion emits for `rowOutOfRange`. -/
def featOutOfRange : Feature :=
  { id := "x"
    name := "X"
    description := ""
    lng := ⟨0, true⟩
    lat := ⟨100, true⟩ }

/-- A location row sitting at the origin with finite coordinates, used as
concrete input. -/
def rowOrigin : LocationRow :=
  { id := "o"
    name := "O"
    description := none
    lat := ⟨0, true⟩
    lng := ⟨0, true⟩
    created_at := "" }

/-- A location row whose latitude is non-finite, used as concrete input. -/
def rowNonFinite : LocationRow :=
  { id := "n"
    name := "N"
    description := none
    lat := ⟨0, false⟩
    lng := ⟨0, true⟩
    created_at := "" }

/-- JavaScript value shapes the model lets a feature's `properties.id`
carry: a string, an integer number, `null`, or `undefined`. -/
inductive JSVal where
  | str (s : String)
  | num (n : ℤ)
  | jsNull
  | undef

/-- Embedding of the id normalisation of the click handler in page.tsx:
`typeof rawId === "string" ? rawId : String(rawId ?? "")`, with `none`
standing for an absent `id` property. -/
def idString : Option JSVal → String
  | some (.str s) => s
  | some (.num n) => toString n
  | some .jsNull => ""
  | some .undef => ""
  | none => ""

/-- The slice of a rendered feature that the click handler of page.tsx
reads: the `id`, `name` and `description` properties (each possibly
absent) and the numeric geometry coordinates. -/
structure ClickFeature where
  id : Option JSVal
  name : Option String
  description : Option String
  lng : ℝ
  lat : ℝ

/-- Shape of the `selected` state of page.tsx (`SelectedPlace`). -/
structure SelectedPlace where
  id : String
  name : String
  description : String
  lng : ℝ
  lat : ℝ

/-- Observable state the click handler touches. `selGen` counts the
`setSelected` calls that stored a fresh object: React re-runs the
`[selected]` effect exactly when the stored reference changes, and every
`setSelected` in the handler stores a freshly built object literal, so a
reference change is exactly a `selGen` change. -/
structure SelCtrlState where
  selected : Option SelectedPlace
  selGen : ℕ
  error : Option String

/-- The error message the click handler surfaces for a pin without a
usable id. -/
def invalidIdMessage : String := "This pin has no valid id (cannot open reviews)."

/-- Embedding of the `map.on("click", "places-layer")` handler of page.tsx
for a tap that hit a feature: normalise the id; if it is empty,
`"undefined"` or `"null"`, surface an error and return without touching
the selection; otherwise store a fresh `SelectedPlace`. -/
def clickStep (st : SelCtrlState) (f : ClickFeature) : SelCtrlState :=
  let id := idString f.id
  if id = "" ∨ id = "undefined" ∨ id = "null" then
    { st with error := some invalidIdMessage }
  else
    { st with
        selected := some
          { id := id
            name := f.name.getD "Untitled"
            description := f.description.getD ""
            lng := f.lng
            lat := f.lat }
        selGen := st.selGen + 1 }

/-- A camera request the core issues to the map surface. -/
inductive MapCmd where
  | easeTo (centerLng centerLat : ℝ) (offsetX offsetY : ℤ) (duration : ℕ)
  | setPadding (top left right bottom : ℕ)

/-- Embedding of the `[selected]` effect body of page.tsx: with a selection
present, ease to its coordinate with a `[0, -120]` pixel offset over 450 ms
and reserve the lower half of the viewport (`bottomPad` stands for
`Math.round(window.innerHeight * 0.5)`); with no selection, clear all
padding to zero. -/
def selectedEffect (bottomPad : ℕ) : Option SelectedPlace → List MapCmd
  | some s => [.easeTo s.lng s.lat 0 (-120) 450, .setPadding 0 0 0 bottomPad]
  | none => [.setPadding 0 0 0 0]

/-- A click's full observable outcome on a live map: the state after the
handler, plus the adapter commands issued by the `[selected]` effect,
which re-runs exactly when the handler stored a fresh selection object
(that is, when `selGen` changed). -/
def clickOutcome (bottomPad : ℕ) (st : SelCtrlState) (f : ClickFeature) :
    SelCtrlState × List MapCmd :=
  let st1 := clickStep st f
  (st1, if st1.selGen = st.selGen then [] else selectedEffect bottomPad st1.selected)

/-- State published by the live position tracker of page.tsx: the `userPos`
and `geoError` pieces of state. -/
structure GeoState where
  userPos : Option Pos
  geoError : Option String

/-- An update delivered by `navigator.geolocation.watchPosition`: either a
position fix or an error with its `message`. -/
inductive GeoEvent where
  | success (lat lng : ℝ)
  | failure (message : String)

/-- The fallback reason of the failure callback of page.tsx. -/
def geoFallbackMessage : String := "Unable to get location."

/-- Embedding of the two `watchPosition` callbacks of page.tsx: success
clears the error and republishes the position; failure publishes
`err.message || "Unable to get location."` (the JavaScript `||` takes the
fallback exactly when the message is the empty string) and leaves the
position untouched. -/
def geoCallback (s : GeoState) : GeoEvent → GeoState
  | .success lat lng => { userPos := some ⟨lat, lng⟩, geoError := none }
  | .failure message =>
      { s with geoError := some (if message = "" then geoFallbackMessage else message) }

/-- Observable state of the data-load effect of page.tsx: the `loading`,
`error` and `locations` pieces of state. -/
structure LoadState where
  loading : Bool
  error : Option String
  locations : List LocationRow

/-- Embedding of the tail of `load()` in page.tsx, from the point where the
awaited supabase query resolves: the per-fetch `cancelled` flag is checked
first and a cancelled fetch returns before any state update; otherwise a
failed query stores the error message with an empty collection, a
successful one stores the rows, and either clears `loading`. -/
def applyFetchResult (cancelled : Bool) (s : LoadState)
    (result : Except String (List LocationRow)) : LoadState :=
  if cancelled then s
  else
    match result with
    | .error message => { s with error := some message, locations := [], loading := false }
    | .ok rows => { s with locations := rows, loading := false }

/-- Axis-aligned bounds as accumulated by `mapboxgl.LngLatBounds.extend`. -/
structure Bounds where
  west : ℝ
  south : ℝ
  east : ℝ
  north : ℝ

/-- Extend bounds to contain one more `[lng, lat]` coordinate. -/
noncomputable def extendBounds (b : Bounds) (lng lat : ℝ) : Bounds :=
  { west := min b.west lng
    south := min b.south lat
    east := max b.east lng
    north := max b.north lat }

/-- Bounds of a single first coordinate: an empty `LngLatBounds` extended
once collapses to that point. -/
def singletonBounds (lng lat : ℝ) : Bounds := ⟨lng, lat, lng, lat⟩

/-- The containment predicate for a coordinate inside bounds. -/
def boundsContain (b : Bounds) (lng lat : ℝ) : Prop :=
  b.west ≤ lng ∧ lng ≤ b.east ∧ b.south ≤ lat ∧ lat ≤ b.north

/-- The `padding` option of a bounds-fit request. -/
structure Padding where
  top : ℕ
  bottom : ℕ
  left : ℕ
  right : ℕ

/-- A viewport request issued by the fitter: either a center-zoom ease or a
bounds-fit with padding and a zoom ceiling. -/
inductive FitRequest where
  | easeTo (centerLng centerLat zoom : ℝ) (duration : ℕ)
  | fitBounds (bounds : Bounds) (padding : Padding) (duration : ℕ) (maxZoom : ℝ)

/-- Embedding of `fitMapToPins` of page.tsx: no features issues nothing;
exactly one feature issues `easeTo` at zoom 15 over 800 ms; two or more
features issue `fitBounds` on the bounds extended with every coordinate,
with padding top 80 / bottom 220 / left 60 / right 60, duration 800 and
`maxZoom` 16. -/
noncomputable def fitMapToPins (features : List Feature) : Option FitRequest :=
  match features with
  | [] => none
  | [f] => some (.easeTo f.lng.val f.lat.val 15 800)
  | f :: rest =>
      some (.fitBounds
        (rest.foldl (fun b g => extendBounds b g.lng.val g.lat.val)
          (singletonBounds f.lng.val f.lat.val))
        ⟨80, 220, 60, 60⟩ 800 16)

/-- Observable per-view simulation state of the map-initialisation and
auto-fit machinery of page.tsx: whether `mapRef.current` is set, whether
the current map instance already carries the `places` source (the async
`load` callback ran), the `hasFitRef.current` flag (a ref, surviving map
re-creation), and how many viewport requests `fitMapToPins` has issued. -/
structure FitSimState where
  mapPresent : Bool
  sourceAdded : Bool
  hasFit : Bool
  fitRequests : ℕ

/-- Number of viewport requests one `fitMapToPins` call issues: one exactly
when it returns a request. -/
noncomputable def fitRequestCount (features : List Feature) : ℕ :=
  match fitMapToPins features with
  | none => 0
  | some _ => 1

/-- Cleanup of the map-init effect of page.tsx (deps `[token, geojson]`):
`map.remove()` destroys the map with its sources and `mapRef.current` is
nulled. -/
def initEffectCleanup (s : FitSimState) : FitSimState :=
  { s with mapPresent := false, sourceAdded := false }

/-- Body of the map-init effect of page.tsx: guarded by
`if (mapRef.current) return`, it creates a fresh map whose style, image and
source loading are still pending. -/
def initEffectBody (s : FitSimState) : FitSimState :=
  if s.mapPresent then s else { s with mapPresent := true, sourceAdded := false }

/-- The source-update effect of page.tsx (deps `[geojson]`): it bails out
unless the map and its `places` source both exist, otherwise runs
`setData` plus a fit gated on `hasFitRef.current`. -/
noncomputable def sourceUpdateEffect (features : List Feature) (s : FitSimState) :
    FitSimState :=
  if s.mapPresent && s.sourceAdded then
    if s.hasFit then s
    else { s with fitRequests := s.fitRequests + fitRequestCount features, hasFit := true }
  else s

/-- The `map.on("load")` plus `loadImage` callback of page.tsx on the
success path: it adds the image, source and layer, then unconditionally
calls `fitMapToPins` and sets `hasFitRef.current = true`. -/
noncomputable def loadCallback (features : List Feature) (s : FitSimState) : FitSimState :=
  { s with
      sourceAdded := true
      fitRequests := s.fitRequests + fitRequestCount features
      hasFit := true }

/-- One data-refresh cycle after `locations` changes: the `geojson` memo
yields a fresh object, so React re-runs both effects depending on it —
cleanup of the init effect first (destroying the map), then the init body
(creating a fresh map), then the source-update effect (which finds no
`places` source on the fresh, still-loading map) — and finally the fresh
map's `load` event fires. -/
noncomputable def dataRefresh (features : List Feature) (s : FitSimState) : FitSimState :=
  loadCallback features (sourceUpdateEffect features (initEffectBody (initEffectCleanup s)))

/-- Initial mount of the view with the first (pre-fetch) geojson. -/
noncomputable def mountView (features : List Feature) : FitSimState :=
  loadCallback features (sourceUpdateEffect features (initEffectBody ⟨false, false, false, 0⟩))

/-- A concrete feature used as input of the fit simulation and the fitter
witness. -/
def featA : Feature :=
  { id := "a"
    name := "A"
    description := ""
    lng := ⟨0, true⟩
    lat := ⟨0, true⟩ }

/-- A second concrete feature used as input of the fitter witness. -/
def featB : Feature :=
  { id := "b"
    name := "B"
    description := ""
    lng := ⟨1, true⟩
    lat := ⟨1, true⟩ }

/-- A concrete click on a point with id `"abc"` at coordinate `(2, 1)`. -/
def tapAbc : ClickFeature :=
  { id := some (.str "abc")
    name := some "A"
    description := some ""
    lng := 1
    lat := 2 }

/-- The selection `tapAbc` produces. -/
def placeAbc : SelectedPlace :=
  { id := "abc"
    name := "A"
    description := ""
    lng := 1
    lat := 2 }

/-- A concrete click on a point whose `id` property is `undefined`. -/
def tapNoId : ClickFeature :=
  { id := some .undef
    name := none
    description := none
    lng := 0
    lat := 0 }

end LornRolls

namespace LornRolls

/-- Claim C9: for all coordinate pairs, the haversine distance from a point
to itself is 0, and the function is symmetric in its two points. -/
theorem haversine_self_zero_and_symm (aLat aLng bLat bLng : ℝ) :
    haversineMeters aLat aLng aLat aLng = 0 ∧
    haversineMeters aLat aLng bLat bLng = haversineMeters bLat bLng aLat aLng := by
  constructor
  · show 2 * 6371000 * Real.arcsin (Real.sqrt
        (Real.sin (toRad (aLat - aLat) / 2) * Real.sin (toRad (aLat - aLat) / 2) +
          Real.cos (toRad aLat) * Real.cos (toRad aLat) *
            Real.sin (toRad (aLng - aLng) / 2) * Real.sin (toRad (aLng - aLng) / 2))) = 0
    simp [toRad]
  · show 2 * 6371000 * Real.arcsin (Real.sqrt
        (Real.sin (toRad (bLat - aLat) / 2) * Real.sin (toRad (bLat - aLat) / 2) +
          Real.cos (toRad aLat) * Real.cos (toRad bLat) *
            Real.sin (toRad (bLng - aLng) / 2) * Real.sin (toRad (bLng - aLng) / 2))) =
      2 * 6371000 * Real.arcsin (Real.sqrt
        (Real.sin (toRad (aLat - bLat) / 2) * Real.sin (toRad (aLat - bLat) / 2) +
          Real.cos (toRad bLat) * Real.cos (toRad aLat) *
            Real.sin (toRad (aLng - bLng) / 2) * Real.sin (toRad (aLng - bLng) / 2)))
    have e1 : toRad (aLat - bLat) / 2 = -(toRad (bLat - aLat) / 2) := by
      unfold toRad; ring
    have e2 : toRad (aLng - bLng) / 2 = -(toRad (bLng - aLng) / 2) := by
      unfold toRad; ring
    have hx : Real.sin (toRad (bLat - aLat) / 2) * Real.sin (toRad (bLat - aLat) / 2) +
        Real.cos (toRad aLat) * Real.cos (toRad bLat) *
          Real.sin (toRad (bLng - aLng) / 2) * Real.sin (toRad (bLng - aLng) / 2) =
        Real.sin (toRad (aLat - bLat) / 2) * Real.sin (toRad (aLat - bLat) / 2) +
        Real.cos (toRad bLat) * Real.cos (toRad aLat) *
          Real.sin (toRad (aLng - bLng) / 2) * Real.sin (toRad (aLng - bLng) / 2) := by
      rw [e1, e2, Real.sin_neg, Real.sin_neg]
      ring
    rw [hx]

/-- Invariant of the nearest-loop fold: when the fold over a suffix of the
list starting from accumulator `acc` yields a winner, that winner's
distance is at most the distance of every finite-coordinate row of the
suffix, and at most the distance already carried by `acc`. -/
theorem nearestFold_min (u : Pos) :
    ∀ (locs : List LocationRow) (acc : Option NearestResult) (best : NearestResult),
      locs.foldl (nearestStep u) acc = some best →
      ((∀ loc ∈ locs, loc.lat.isFinite = true → loc.lng.isFinite = true →
          best.meters ≤ haversineMeters u.lat u.lng loc.lat.val loc.lng.val) ∧
        (∀ b : NearestResult, acc = some b → best.meters ≤ b.meters)) := by
  intro locs
  induction locs with
  | nil =>
    intro acc best h
    rw [List.foldl_nil] at h
    refine ⟨fun loc hmem => absurd hmem (List.not_mem_nil _), fun b hb => ?_⟩
    rw [h] at hb
    cases hb
    exact le_refl _
  | cons l ls ih =>
    intro acc best h
    rw [List.foldl_cons] at h
    obtain ⟨ih1, ih2⟩ := ih (nearestStep u acc l) best h
    refine ⟨?_, ?_⟩
    · intro loc hmem hlat hlng
      cases hmem with
      | tail _ hmem => exact ih1 loc hmem hlat hlng
      | head =>
        cases acc with
        | none =>
          have hs : nearestStep u none l =
              some ⟨l, haversineMeters u.lat u.lng l.lat.val l.lng.val⟩ := by
            simp [nearestStep, hlat, hlng]
          exact ih2 _ hs
        | some b =>
          by_cases hm : haversineMeters u.lat u.lng l.lat.val l.lng.val < b.meters
          · have hs : nearestStep u (some b) l =
                some ⟨l, haversineMeters u.lat u.lng l.lat.val l.lng.val⟩ := by
              simp [nearestStep, hlat, hlng, hm]
            exact ih2 _ hs
          · have hs : nearestStep u (some b) l = some b := by
              simp [nearestStep, hlat, hlng, hm]
            exact le_trans (ih2 b hs) (not_lt.mp hm)
    · intro b hb
      subst hb
      by_cases hc : (l.lat.isFinite && l.lng.isFinite) = true
      · by_cases hm : haversineMeters u.lat u.lng l.lat.val l.lng.val < b.meters
        · have hs : nearestStep u (some b) l =
              some ⟨l, haversineMeters u.lat u.lng l.lat.val l.lng.val⟩ := by
            simp [nearestStep, hc, hm]
          exact le_trans (ih2 _ hs) (le_of_lt hm)
        · have hs : nearestStep u (some b) l = some b := by
            simp [nearestStep, hc, hm]
          exact ih2 b hs
      · have hs : nearestStep u (some b) l = some b := by
          simp [nearestStep, hc]
        exact ih2 b hs

/-- Claim C2: whenever the nearest computation returns a result, its
distance is at most the haversine distance from the user position to every
row of the collection with finite coordinates (rows with a non-finite
coordinate are skipped by the loop and get no distance at all). -/
theorem nearest_is_min (u : Pos) (locs : List LocationRow) (best : NearestResult)
    (h : nearest (some u) locs = some best) :
    ∀ loc ∈ locs, loc.lat.isFinite = true → loc.lng.isFinite = true →
      best.meters ≤ haversineMeters u.lat u.lng loc.lat.val loc.lng.val := by
  have h2 : (if locs.isEmpty = true then none else locs.foldl (nearestStep u) none) =
      some best := h
  by_cases he : locs.isEmpty = true
  · rw [if_pos he] at h2
    cases h2
  · rw [if_neg he] at h2
    exact (nearestFold_min u locs none best h2).1

/-- Concrete instantiation of claim C2's theorem: on the single row at the
origin with the user at the origin, the hypotheses hold and the bound is
witnessed. -/
theorem nearest_is_min_witness :
    nearest (some ⟨0, 0⟩) [rowOrigin] = some ⟨rowOrigin, haversineMeters 0 0 0 0⟩ ∧
    haversineMeters 0 0 0 0 ≤ haversineMeters 0 0 0 0 :=
  ⟨rfl,
    nearest_is_min ⟨0, 0⟩ [rowOrigin] ⟨rowOrigin, haversineMeters 0 0 0 0⟩ rfl
      rowOrigin (List.Mem.head _) rfl rfl⟩

/-- Claim C1 counterexample: the geojson conversion emits the record whose
latitude is the finite value 100, which exceeds 90, so out-of-range
coordinates are not filtered out. -/
theorem geojson_range_counterexample :
    geojsonFeatures [rowOutOfRange] = [featOutOfRange] ∧
    (90 : ℝ) < featOutOfRange.lat.val := by
  refine ⟨rfl, ?_⟩
  show (90 : ℝ) < 100
  norm_num

/-- Claim C1 (amended): every feature the geojson conversion emits has
finite latitude and longitude; the geographic range is not checked, so a
record with finite out-of-range coordinates is preserved in the output. -/
theorem geojson_emits_only_finite (locations : List LocationRow) (f : Feature)
    (hf : f ∈ geojsonFeatures locations) :
    f.lat.isFinite = true ∧ f.lng.isFinite = true := by
  unfold geojsonFeatures at hf
  rcases List.mem_map.mp hf with ⟨l, hl, rfl⟩
  have hp := List.of_mem_filter hl
  simp only [Bool.and_eq_true] at hp
  exact ⟨hp.1, hp.2⟩

/-- Concrete instantiation of claim C1's amended theorem at the emitted
out-of-range feature. -/
theorem geojson_emits_only_finite_witness :
    featOutOfRange ∈ geojsonFeatures [rowOutOfRange] ∧
    featOutOfRange.lat.isFinite = true ∧ featOutOfRange.lng.isFinite = true := by
  have hmem : featOutOfRange ∈ geojsonFeatures [rowOutOfRange] := by
    show featOutOfRange ∈ [featOutOfRange]
    exact List.Mem.head _
  exact ⟨hmem, geojson_emits_only_finite [rowOutOfRange] featOutOfRange hmem⟩

/-- Rows with a non-finite coordinate are skipped by the nearest loop: the
accumulator passes through unchanged. -/
theorem nearestStep_skip (u : Pos) (acc : Option NearestResult) (l : LocationRow)
    (h : l.lat.isFinite = false ∨ l.lng.isFinite = false) :
    nearestStep u acc l = acc := by
  have hc : (l.lat.isFinite && l.lng.isFinite) = false := by
    cases h with
    | inl h => rw [h, Bool.false_and]
    | inr h => rw [h, Bool.and_false]
  simp [nearestStep, hc]

/-- Claim C10: on a non-empty collection every entry of which has a
non-finite latitude or longitude, the nearest computation returns no
result; a finite but out-of-range entry, in contrast, is not skipped and
is returned as the nearest point. -/
theorem nearest_all_nonfinite_none (u : Pos) (locs : List LocationRow)
    (hne : locs ≠ [])
    (hall : ∀ loc ∈ locs, loc.lat.isFinite = false ∨ loc.lng.isFinite = false) :
    nearest (some u) locs = none ∧
    nearest (some ⟨0, 0⟩) [rowOutOfRange] =
      some ⟨rowOutOfRange, haversineMeters 0 0 100 0⟩ := by
  refine ⟨?_, rfl⟩
  have hfold : ∀ (ls : List LocationRow) (acc : Option NearestResult),
      (∀ loc ∈ ls, loc.lat.isFinite = false ∨ loc.lng.isFinite = false) →
      ls.foldl (nearestStep u) acc = acc := by
    intro ls
    induction ls with
    | nil => intro acc _; rfl
    | cons l ls ih =>
      intro acc hall2
      rw [List.foldl_cons, nearestStep_skip u acc l (hall2 l (List.Mem.head _))]
      exact ih acc fun loc hm => hall2 loc (List.Mem.tail _ hm)
  cases locs with
  | nil => exact absurd rfl hne
  | cons l ls =>
    show (if (l :: ls).isEmpty = true then none
      else (l :: ls).foldl (nearestStep u) none) = none
    rw [if_neg (by simp)]
    exact hfold (l :: ls) none hall

/-- Concrete instantiation of claim C10's theorem: a singleton collection
whose row has a non-finite latitude yields no nearest result. -/
theorem nearest_all_nonfinite_none_witness :
    [rowNonFinite] ≠ ([] : List LocationRow) ∧
    nearest (some ⟨0, 0⟩) [rowNonFinite] = none :=
  ⟨List.cons_ne_nil _ _,
    (nearest_all_nonfinite_none ⟨0, 0⟩ [rowNonFinite] (List.cons_ne_nil _ _)
        (fun loc hm => by
          rw [List.mem_singleton] at hm
          subst hm
          exact Or.inl rfl)).1⟩

/-- Claim C6: a successful tracker update clears any prior error and
republishes the live position; a failed update leaves the last-known
position untouched and publishes a non-empty, human-readable error
reason. -/
theorem tracker_update_behavior (s : GeoState) (lat lng : ℝ) (message : String) :
    (geoCallback s (.success lat lng)).geoError = none ∧
    (geoCallback s (.success lat lng)).userPos = some ⟨lat, lng⟩ ∧
    (geoCallback s (.failure message)).userPos = s.userPos ∧
    ∃ reason, (geoCallback s (.failure message)).geoError = some reason ∧ reason ≠ "" := by
  refine ⟨rfl, rfl, rfl, ?_⟩
  by_cases hm : message = ""
  · exact ⟨geoFallbackMessage, by simp [geoCallback, hm], by decide⟩
  · exact ⟨message, by simp [geoCallback, hm], hm⟩

/-- Claim C7: a fetch result arriving with the per-fetch cancellation flag
set changes nothing: neither the locations collection, nor the error flag,
nor the loading flag. -/
theorem cancelled_fetch_noop (s : LoadState) (result : Except String (List LocationRow)) :
    applyFetchResult true s result = s := rfl

/-- Claim C4 counterexample: with the selection open on the point with id
`"abc"`, tapping that same point re-issues the pan and padding commands
(the handler always stores a fresh selection object, so the `[selected]`
effect re-runs), refuting the claimed same-point no-op. -/
theorem same_point_tap_counterexample :
    (clickOutcome 400 ⟨some placeAbc, 1, none⟩ tapAbc).2 =
      [.easeTo 1 2 0 (-120) 450, .setPadding 0 0 0 400] ∧
    (MapCmd.easeTo 1 2 0 (-120) 450 :: [MapCmd.setPadding 0 0 0 400]) ≠ ([] : List MapCmd) :=
  ⟨rfl, List.cons_ne_nil _ _⟩

/-- Claim C4 (amended): a tap on any point with a usable identifier —
whether or not it is the point already open — replaces the selection with
a freshly stored one and re-triggers the pan and padding side effects;
same-point taps are not special-cased. -/
theorem valid_tap_replaces_and_pans (bottomPad : ℕ) (st : SelCtrlState) (f : ClickFeature)
    (hid : ¬(idString f.id = "" ∨ idString f.id = "undefined" ∨ idString f.id = "null")) :
    clickOutcome bottomPad st f =
      ({ st with
          selected := some
            { id := idString f.id
              name := f.name.getD "Untitled"
              description := f.description.getD ""
              lng := f.lng
              lat := f.lat }
          selGen := st.selGen + 1 },
        [.easeTo f.lng f.lat 0 (-120) 450, .setPadding 0 0 0 bottomPad]) := by
  simp only [clickOutcome, clickStep]
  rw [if_neg hid]
  simp [selectedEffect]

/-- Concrete instantiation of claim C4's amended theorem at a tap on the
point with id `"abc"`. -/
theorem valid_tap_replaces_and_pans_witness :
    ¬(idString tapAbc.id = "" ∨ idString tapAbc.id = "undefined" ∨
      idString tapAbc.id = "null") ∧
    clickOutcome 400 ⟨none, 0, none⟩ tapAbc =
      (⟨some placeAbc, 1, none⟩, [.easeTo 1 2 0 (-120) 450, .setPadding 0 0 0 400]) :=
  ⟨by decide, valid_tap_replaces_and_pans 400 ⟨none, 0, none⟩ tapAbc (by decide)⟩

/-- Claim C5: a tap on a point whose normalised identifier is empty,
`"undefined"` or `"null"` changes neither the selection nor the stored
reference, issues no pan or padding command, and surfaces the recoverable
error message. -/
theorem invalid_tap_no_transition (bottomPad : ℕ) (st : SelCtrlState) (f : ClickFeature)
    (hid : idString f.id = "" ∨ idString f.id = "undefined" ∨ idString f.id = "null") :
    clickOutcome bottomPad st f = ({ st with error := some invalidIdMessage }, []) := by
  simp only [clickOutcome, clickStep]
  rw [if_pos hid]
  simp

/-- Concrete instantiation of claim C5's theorem at a tap whose `id`
property is `undefined`. -/
theorem invalid_tap_no_transition_witness :
    (idString tapNoId.id = "" ∨ idString tapNoId.id = "undefined" ∨
      idString tapNoId.id = "null") ∧
    clickOutcome 400 ⟨none, 0, none⟩ tapNoId = (⟨none, 0, some invalidIdMessage⟩, []) :=
  ⟨Or.inl rfl, invalid_tap_no_transition 400 ⟨none, 0, none⟩ tapNoId (Or.inl rfl)⟩

/-- Extending bounds preserves containment of already-contained points. -/
theorem boundsContain_extend (b : Bounds) (lng lat x y : ℝ)
    (h : boundsContain b x y) : boundsContain (extendBounds b lng lat) x y :=
  ⟨le_trans (min_le_left _ _) h.1, le_trans h.2.1 (le_max_left _ _),
    le_trans (min_le_left _ _) h.2.2.1, le_trans h.2.2.2 (le_max_left _ _)⟩

/-- Extending bounds with a point makes the bounds contain that point. -/
theorem boundsContain_extend_self (b : Bounds) (lng lat : ℝ) :
    boundsContain (extendBounds b lng lat) lng lat :=
  ⟨min_le_right _ _, le_max_right _ _, min_le_right _ _, le_max_right _ _⟩

/-- The fold of `extend` over a feature list contains every previously
contained point and every point of the list. -/
theorem foldl_extend_contains (fs : List Feature) :
    ∀ b : Bounds,
      (∀ x y : ℝ, boundsContain b x y →
        boundsContain (fs.foldl (fun c g => extendBounds c g.lng.val g.lat.val) b) x y) ∧
      (∀ g ∈ fs,
        boundsContain (fs.foldl (fun c g => extendBounds c g.lng.val g.lat.val) b)
          g.lng.val g.lat.val) := by
  induction fs with
  | nil =>
    intro b
    exact ⟨fun x y h => h, fun g hg => absurd hg (List.not_mem_nil _)⟩
  | cons f fs ih =>
    intro b
    constructor
    · intro x y h
      rw [List.foldl_cons]
      exact (ih _).1 x y (boundsContain_extend _ _ _ _ _ h)
    · intro g hg
      rw [List.foldl_cons]
      cases hg with
      | head => exact (ih _).1 _ _ (boundsContain_extend_self b _ _)
      | tail _ hg => exact (ih _).2 g hg

/-- Claim C8: the viewport fitter issues nothing for zero points, a
center-zoom ease (zoom 15, not a bounds-fit) for exactly one point, and
for two or more points a bounds-fit whose box contains every input point,
with more padding at the bottom (220) than at the top (80) and a maximum
zoom ceiling of 16. -/
theorem fitMapToPins_policy (features : List Feature) :
    fitMapToPins [] = none ∧
    (∀ f : Feature, fitMapToPins [f] = some (.easeTo f.lng.val f.lat.val 15 800)) ∧
    (2 ≤ features.length →
      ∃ b : Bounds,
        fitMapToPins features = some (.fitBounds b ⟨80, 220, 60, 60⟩ 800 16) ∧
        (∀ g ∈ features, boundsContain b g.lng.val g.lat.val) ∧
        (Padding.mk 80 220 60 60).top < (Padding.mk 80 220 60 60).bottom) := by
  refine ⟨rfl, fun f => rfl, ?_⟩
  intro hlen
  cases features with
  | nil =>
    rw [List.length_nil] at hlen
    exact absurd hlen (by decide)
  | cons f rest =>
    cases rest with
    | nil =>
      rw [List.length_cons, List.length_nil] at hlen
      exact absurd hlen (by decide)
    | cons g rest =>
      refine ⟨_, rfl, ?_, by decide⟩
      intro p hp
      cases hp with
      | head =>
        exact (foldl_extend_contains (g :: rest) _).1 _ _
          ⟨le_refl _, le_refl _, le_refl _, le_refl _⟩
      | tail _ hp => exact (foldl_extend_contains (g :: rest) _).2 p hp

/-- Concrete instantiation of claim C8's theorem on the two-feature list. -/
theorem fitMapToPins_policy_witness :
    2 ≤ ([featA, featB] : List Feature).length ∧
    (∃ b : Bounds,
      fitMapToPins [featA, featB] = some (.fitBounds b ⟨80, 220, 60, 60⟩ 800 16) ∧
      (∀ g ∈ [featA, featB], boundsContain b g.lng.val g.lat.val) ∧
      (Padding.mk 80 220 60 60).top < (Padding.mk 80 220 60 60).bottom) :=
  ⟨by decide, (fitMapToPins_policy [featA, featB]).2.2 (by decide)⟩

/-- Claim C3, evaluated at the failing trace: after a mount (whose first,
pre-fetch geojson is empty) the fit-completed flag is already set, yet each
of two subsequent data refreshes with a non-empty feature list issues a
further fit request, because the `[token, geojson]` effect deps tear down
and re-create the map and the fresh map's load handler calls
`fitMapToPins` unconditionally: two automatic fit requests are issued
after the flag was set, where the claim allows at most one per view
lifetime. -/
theorem fit_reruns_on_refresh :
    (mountView []).hasFit = true ∧
    (mountView []).fitRequests = 0 ∧
    (dataRefresh [featA] (mountView [])).hasFit = true ∧
    (dataRefresh [featA] (mountView [])).fitRequests = 1 ∧
    (dataRefresh [featA] (dataRefresh [featA] (mountView []))).fitRequests = 2 :=
  ⟨rfl, rfl, rfl, rfl, rfl⟩

end LornRolls
